import Mathlib

/-!
Shallow embedding of the PPSSPP x64 IR JIT backend
(`Core/MIPS/x86/X64IRJit.cpp`): the code-cache emission layer,
block compilation (`CompileBlock`), exit emission (`WriteConstExit`),
exit patching (`OverwriteExit`) and invalidation (`InvalidateBlock`).

The code cache is modelled as a byte-addressed memory whose cells are
tagged with the emitted instruction they belong to; per-instruction
host-code generation (`CompileIRInst`, plus any register-allocator
spills) is abstracted by an oracle giving the number of bytes each
loop iteration emits.  External collaborators that live outside the
visible source (the block table, the link table, memory protection)
are modelled from the spec where noted.
-/

namespace X64Jit

/-- Protection state of a byte of the code cache. -/
inductive Prot where
  | rw
  | rx
deriving DecidableEq, Repr

/-- One byte of the code cache, tagged by the emitted instruction it
belongs to (`k` is the byte index within that instruction). `free`
marks bytes never written. -/
inductive Cell where
  | free
  | cmpDowncount (k : Nat)
  | jccForward (k : Nat)
  | jccBack (target : Nat) (k : Nat)
  | movScratchImm (imm : Nat) (k : Nat)
  | jmpOuter (k : Nat)
  | jmpDispatch (k : Nat)
  | jmpOff (dest : Nat) (k : Nat)
  | body (i : Nat) (k : Nat)
  | debugTail (k : Nat)
  | filler
deriving DecidableEq, Repr

/-- Compiled-block metadata held by the external block table: the
offset of the validated entry point, 0 while unset. -/
structure NativeBlock where
  checkedOffset : Nat
deriving DecidableEq, Repr

/-- An IR block as the backend sees it: guest start PC, the cache
offset of its code (written by the backend), and its instruction
count. -/
structure IRBlock where
  originalStart : Nat
  targetOffset : Int
  numInstructions : Nat
deriving DecidableEq, Repr

/-- Exit-site record: owning block id, target guest PC, byte offset of
the patch site, reserved byte length. -/
structure ExitRecord where
  fromBlock : Int
  targetPC : Nat
  offset : Nat
  len : Nat
deriving DecidableEq, Repr

/-- Backend configuration fixed at construction: the `jo` flags used by
this layer plus the platform write-xor-execute property. -/
structure Config where
  enableBlocklink : Bool
  useBackJump : Bool
  wxExclusive : Bool
  debugStats : Bool
deriving DecidableEq, Repr

/-- Backend state: write cursor (offset into the cache), cache
contents, per-byte protection, the external block table
(`GetNativeBlock` view), the exit-site records, the currently
compiling block id (-1 when none) and the external PC-to-block-id
lookup. -/
structure JitState where
  cursor : Nat
  mem : Nat → Cell
  prot : Nat → Prot
  nativeBlocks : Int → Option NativeBlock
  exits : List ExitRecord
  compilingBlockNum : Int
  lookup : Nat → Int

/-- This should be enough for exits and invalidations (source constant). -/
def MIN_BLOCK_NORMAL_LEN : Nat := 16

/-- Minimum reserved length of an exit site (source constant). -/
def MIN_BLOCK_EXIT_LEN : Nat := 16

/-- AllocCodeSpace(1024 * 1024 * 16): total size of the code cache. -/
def codeCacheSize : Nat := 1024 * 1024 * 16

/-- Byte size of CMP(32, MDisp(CTXREG, downcountOffset), Imm32). -/
def cmpDowncountSize : Nat := 8

/-- Byte size of a short fixup conditional jump, J_CC(CC_NS). -/
def jccShortSize : Nat := 2

/-- Byte size of a near conditional jump, J_CC(CC_NS, target, true). -/
def jccNearSize : Nat := 6

/-- Byte size of MOV(32, R(SCRATCH1), Imm32). -/
def movImmSize : Nat := 5

/-- Byte size of a forced near JMP(target, true). -/
def jmpFarSize : Nat := 5

/-- Byte size of the DebugStatsEnabled tail: ABI_CallFunction(&NoBlockExits)
followed by JMP(crashHandler, true). -/
def debugTailSize : Nat := 17

/-- Write `n` bytes at offset `off` of a memory, taking byte `k` of the
new contents from `f k`. -/
def writeRange (m : Nat → Cell) (off n : Nat) (f : Nat → Cell) : Nat → Cell :=
  fun a => if off ≤ a ∧ a < off + n then f (a - off) else m a

/-- Set the protection of the `n` bytes at offset `off` to `v`. -/
def protectRange (p : Nat → Prot) (off n : Nat) (v : Prot) : Nat → Prot :=
  fun a => if off ≤ a ∧ a < off + n then v else p a

/-- Modelled from the spec: `ProtectMemoryPages` is an external
platform service ("per-page write/execute permission toggling");
following the spec's "obtain temporary write permission on just that
patch region", it is modelled at byte-range granularity over the
requested region. -/
def ProtectMemoryPages (p : Nat → Prot) (off n : Nat) (v : Prot) : Nat → Prot :=
  protectRange p off n v

/-- GetSpaceLeft(): free bytes after the write cursor. -/
def GetSpaceLeft (s : JitState) : Nat := codeCacheSize - s.cursor

/-- Emit `n` bytes at the write cursor and advance it. -/
def emit (s : JitState) (n : Nat) (f : Nat → Cell) : JitState :=
  { s with mem := writeRange s.mem s.cursor n f, cursor := s.cursor + n }

/-- ReserveCodeSpace(n): bump the cursor by `n` filler bytes. -/
def ReserveCodeSpace (s : JitState) (n : Nat) : JitState :=
  emit s n (fun _ => Cell.filler)

/-- GetNativeBlock(block_num): the external block table view. -/
def GetNativeBlock (s : JitState) (block_num : Int) : Option NativeBlock :=
  s.nativeBlocks block_num

/-- Modelled from the spec: `SetBlockCheckedOffset` updates the
external block table's metadata for `block_num` ("the backend reads
and updates targetOffset/checkedOffset"). -/
def SetBlockCheckedOffset (s : JitState) (block_num : Int) (off : Nat) : JitState :=
  { s with nativeBlocks := fun b => if b = block_num then some ⟨off⟩ else s.nativeBlocks b }

/-- GetBlockNumberFromStartAddress(pc): the external PC-to-id map. -/
def GetBlockNumberFromStartAddress (s : JitState) (pc : Nat) : Int :=
  s.lookup pc

/-- Modelled from the spec: `AddLinkableExit` registers an exit-site
record (owning block id, target guest PC, patch offset, reserved
length). -/
def AddLinkableExit (s : JitState) (block_num : Int) (pc : Nat) (exitStart len : Nat) :
    JitState :=
  { s with exits := ⟨block_num, pc, exitStart, len⟩ :: s.exits }

/-- Modelled from the spec: `EraseAllLinks(block_num)` "removes every
exit-site record whose target was this block id"; a record targets a
block id through the external PC-to-id map. -/
def EraseAllLinks (lk : Nat → Int) (exits : List ExitRecord) (block_num : Int) :
    List ExitRecord :=
  exits.filter (fun r => lk r.targetPC != block_num)

/-- X64JitBackend::OverwriteExit(srcOffset, len, block_num): if the
block has metadata, make the region writable (under W^X), write a
direct jump to its checked offset, pad the rest of the reserved bytes,
then restore execute permission — over 16 bytes, as in the source. -/
def OverwriteExit (cfg : Config) (s : JitState) (srcOffset len : Nat) (block_num : Int) :
    JitState :=
  match GetNativeBlock s block_num with
  | none => s
  | some nativeBlock =>
    let prot1 := if cfg.wxExclusive then ProtectMemoryPages s.prot srcOffset len Prot.rw
      else s.prot
    let mem1 := writeRange s.mem srcOffset jmpFarSize
      (fun k => Cell.jmpOff nativeBlock.checkedOffset k)
    let bytesWritten := jmpFarSize
    let mem2 := if bytesWritten < len then
        writeRange mem1 (srcOffset + bytesWritten) (len - bytesWritten) (fun _ => Cell.filler)
      else mem1
    let prot2 := if cfg.wxExclusive then ProtectMemoryPages prot1 srcOffset 16 Prot.rx
      else prot1
    { s with mem := mem2, prot := prot2 }

/-- X64JitBackend::InvalidateBlock(block, block_num): when the guest PC
is nonzero, overwrite the first MIN_BLOCK_NORMAL_LEN bytes at the
block's targetOffset with MOV(SCRATCH1, pc); JMP(dispatcher), padded
with filler, toggling protection under W^X; then erase all links for
`block_num`. -/
def InvalidateBlock (cfg : Config) (s : JitState) (block : IRBlock) (block_num : Int) :
    JitState :=
  let offset := block.targetOffset.toNat
  let pc := block.originalStart
  let s1 :=
    if pc ≠ 0 then
      let prot1 := if cfg.wxExclusive then
          ProtectMemoryPages s.prot offset MIN_BLOCK_NORMAL_LEN Prot.rw
        else s.prot
      let mem1 := writeRange s.mem offset movImmSize (fun k => Cell.movScratchImm pc k)
      let mem2 := writeRange mem1 (offset + movImmSize) jmpFarSize
        (fun k => Cell.jmpDispatch k)
      let bytesWritten := movImmSize + jmpFarSize
      let mem3 := if bytesWritten < MIN_BLOCK_NORMAL_LEN then
          writeRange mem2 (offset + bytesWritten) (MIN_BLOCK_NORMAL_LEN - bytesWritten)
            (fun _ => Cell.filler)
        else mem2
      let prot2 := if cfg.wxExclusive then
          ProtectMemoryPages prot1 offset MIN_BLOCK_NORMAL_LEN Prot.rx
        else prot1
      { s with mem := mem3, prot := prot2 }
    else s
  { s1 with exits := EraseAllLinks s1.lookup s1.exits block_num }

/-- The unlinked exit sequence: MOV(32, R(SCRATCH1), Imm32(pc)) then
JMP(dispatcherPCInSCRATCH1_, true). -/
def emitUnlinkedExit (s : JitState) (pc : Nat) : JitState :=
  emit (emit s movImmSize (fun k => Cell.movScratchImm pc k)) jmpFarSize
    (fun k => Cell.jmpDispatch k)

/-- X64JitBackend::WriteConstExit(pc): emit either a direct jump to the
target block's checked offset (when linkable) or the dispatcher
fallback; when linking is enabled, pad the site to MIN_BLOCK_EXIT_LEN
and register an exit record for the currently compiling block. -/
def WriteConstExit (cfg : Config) (s : JitState) (pc : Nat) : JitState :=
  let block_num := GetBlockNumberFromStartAddress s pc
  let exitStart := s.cursor
  let s1 :=
    match GetNativeBlock s block_num with
    | some nativeBlock =>
      if 0 ≤ block_num ∧ cfg.enableBlocklink = true ∧ nativeBlock.checkedOffset ≠ 0 then
        emit s jmpFarSize (fun k => Cell.jmpOff nativeBlock.checkedOffset k)
      else
        emitUnlinkedExit s pc
    | none => emitUnlinkedExit s pc
  if cfg.enableBlocklink then
    let len0 := s1.cursor - exitStart
    let s2 := if len0 < MIN_BLOCK_EXIT_LEN then
        ReserveCodeSpace s1 (MIN_BLOCK_EXIT_LEN - len0)
      else s1
    let len := if len0 < MIN_BLOCK_EXIT_LEN then MIN_BLOCK_EXIT_LEN else len0
    AddLinkableExit s2 s.compilingBlockNum pc exitStart len
  else s1

/-- The forward ("checked entry") guard emitted before the block body:
CMP downcount, short J_CC over the bailout, MOV(SCRATCH1, startPC),
JMP(outerLoopPCInSCRATCH1_, true). -/
def emitForwardGuard (s : JitState) (startPC : Nat) : JitState :=
  let s1 := emit s cmpDowncountSize (fun k => Cell.cmpDowncount k)
  let s2 := emit s1 jccShortSize (fun k => Cell.jccForward k)
  let s3 := emit s2 movImmSize (fun k => Cell.movScratchImm startPC k)
  emit s3 jmpFarSize (fun k => Cell.jmpOuter k)

/-- The back-jump guard emitted after the body in the alternate linking
style: CMP downcount, near J_CC back to blockStart, MOV(SCRATCH1,
startPC), JMP(outerLoopPCInSCRATCH1_, true). -/
def emitBackGuard (s : JitState) (blockStart startPC : Nat) : JitState :=
  let s1 := emit s cmpDowncountSize (fun k => Cell.cmpDowncount k)
  let s2 := emit s1 jccNearSize (fun k => Cell.jccBack blockStart k)
  let s3 := emit s2 movImmSize (fun k => Cell.movScratchImm startPC k)
  emit s3 jmpFarSize (fun k => Cell.jmpOuter k)

/-- One primitive effect of compiling a single IR instruction: either
raw host-code bytes from the per-opcode selector (including any
register-allocator spills or debug-forced flushes), or a
constant-target exit emitted through WriteConstExit, as the exit IR
operations do mid-block. -/
inductive IRAction where
  | emitBody (n : Nat)
  | constExit (pc : Nat)

/-- Apply one primitive effect of CompileIRInst for instruction `i`. -/
def applyAction (cfg : Config) (i : Nat) (s : JitState) : IRAction → JitState
  | IRAction.emitBody n => emit s n (fun k => Cell.body i k)
  | IRAction.constExit pc => WriteConstExit cfg s pc

/-- CompileIRInst (plus any debug-forced register flush) for
instruction `i`, abstracted by the oracle list of primitive effects
`g i`; an exit instruction's WriteConstExit call runs here, inside the
loop, and may register exit-site records. -/
def emitBodyInst (cfg : Config) (g : Nat → List IRAction) (i : Nat) (s : JitState) :
    JitState :=
  (g i).foldl (applyAction cfg i) s

/-- The instruction loop of CompileBlock: compile each instruction in
order, and after each one fail if free space fell below the safety
threshold, as in the source. -/
def compileLoop (cfg : Config) (g : Nat → List IRAction) : Nat → Nat → JitState →
    Bool × JitState
  | 0, _, s => (true, s)
  | n + 1, i, s =>
    let s1 := emitBodyInst cfg g i s
    if GetSpaceLeft s1 < 0x800 then (false, s1)
    else compileLoop cfg g n (i + 1) s1

/-- The DebugStatsEnabled tail of CompileBlock: a call to NoBlockExits
plus a jump to the crash handler, emitted only with debug stats on. -/
def debugTailStep (cfg : Config) (s3 : JitState) : JitState :=
  if cfg.debugStats then emit s3 debugTailSize (fun k => Cell.debugTail k) else s3

/-- The padding of CompileBlock: if the bytes emitted since blockStart
are fewer than MIN_BLOCK_NORMAL_LEN, reserve the difference. -/
def padStep (blockStart : Nat) (s4 : JitState) : JitState :=
  let len := s4.cursor - blockStart
  if len < MIN_BLOCK_NORMAL_LEN then ReserveCodeSpace s4 (MIN_BLOCK_NORMAL_LEN - len) else s4

/-- The back-jump guard of CompileBlock, emitted after the body when
that linking style is selected. -/
def backGuardStep (cfg : Config) (blockStart startPC : Nat) (s6 : JitState) : JitState :=
  if cfg.enableBlocklink && cfg.useBackJump then emitBackGuard s6 blockStart startPC else s6

/-- The tail of a successful CompileBlock: optional debug tail, padding
of the body up to MIN_BLOCK_NORMAL_LEN, recording of checkedOffset
when not written up front, the optional back-jump guard, and clearing
of the currently-compiling marker. -/
def compileFinish (cfg : Config) (startPC blockStart : Nat) (block_num : Int)
    (wroteCheckedOffset : Bool) (s3 : JitState) : JitState :=
  let s4 := debugTailStep cfg s3
  let s5 := padStep blockStart s4
  let s6 := if !wroteCheckedOffset then SetBlockCheckedOffset s5 block_num s5.cursor else s5
  let s7 := backGuardStep cfg blockStart startPC s6
  { s7 with compilingBlockNum := -1 }

/-- The entry phase of CompileBlock after the space check: in
forward-check linking style, record checkedOffset and emit the entry
guard; then set the currently-compiling marker (the cursor is
unaffected by the marker, so the block-start offset is this state's
cursor). -/
def compileEntry (cfg : Config) (s : JitState) (block : IRBlock) (block_num : Int) :
    JitState :=
  let s1 := if cfg.enableBlocklink && !cfg.useBackJump then
      emitForwardGuard (SetBlockCheckedOffset s block_num s.cursor) block.originalStart
    else s
  { s1 with compilingBlockNum := block_num }

/-- X64JitBackend::CompileBlock(block, block_num, preload): returns
success, the new backend state, and the block (whose targetOffset the
source mutates in place). -/
def CompileBlock (cfg : Config) (g : Nat → List IRAction) (s : JitState) (block : IRBlock)
    (block_num : Int) : Bool × JitState × IRBlock :=
  if GetSpaceLeft s < 0x800 then (false, s, block)
  else
    let s2 := compileEntry cfg s block block_num
    let blockStart := s2.cursor
    let block1 := { block with targetOffset := (blockStart : Int) }
    match compileLoop cfg g block.numInstructions 0 s2 with
    | (false, s3) => (false, { s3 with compilingBlockNum := -1 }, block1)
    | (true, s3) =>
      (true, compileFinish cfg block.originalStart blockStart block_num
        (cfg.enableBlocklink && !cfg.useBackJump) s3, block1)

/-- Canonical backend state used by concrete witnesses: cursor past the
trampoline area, empty cache, everything executable, no blocks, no
links. -/
def sampleState : JitState :=
  { cursor := 0x2000, mem := fun _ => Cell.free, prot := fun _ => Prot.rx,
    nativeBlocks := fun _ => none, exits := [], compilingBlockNum := -1,
    lookup := fun _ => -1 }

/-- A state whose code cache is completely full. -/
def fullState : JitState := { sampleState with cursor := codeCacheSize }

/-- Forward-check linking configuration (blocklink on, back-jump off,
no W^X, no debug stats). -/
def cfgFwd : Config := ⟨true, false, false, false⟩

/-- A one-instruction block starting at guest PC 0x8900. -/
def c2Block : IRBlock := ⟨0x8900, 0, 1⟩

/-- A state where guest PC 0x100 maps to block 5, compiled with checked
offset 0x500, and two exit records exist. -/
def linkedState : JitState := { sampleState with
  lookup := (fun pc => if pc = 0x100 then 5 else -1),
  nativeBlocks := (fun b => if b = 5 then some ⟨0x500⟩ else none),
  exits := [⟨3, 0x100, 0x40, 16⟩, ⟨4, 0x200, 0x60, 16⟩] }

/-- A state where block 5 has a metadata entry whose checkedOffset is
still the unset sentinel 0 (per the data model, checkedOffset is 0
until compilation completes). -/
def c1State : JitState :=
  { sampleState with nativeBlocks := (fun b => if b = 5 then some ⟨0⟩ else none) }

/-- Forward-link configuration on a platform with exclusive
write-xor-execute permissions. -/
def cfgWX : Config := ⟨true, false, true, false⟩

/-- Total byte size of the back-jump guard sequence. -/
def backGuardSize : Nat := cmpDowncountSize + jccNearSize + movImmSize + jmpFarSize

/-- Block metadata for witnesses: a compiled block at targetOffset
0x300 with guest start PC 0x8900. -/
def invBlock : IRBlock := ⟨0x8900, 0x300, 1⟩

/-- Block metadata for the C10 witness: guest PC 0 at targetOffset
0x300. -/
def invBlockZero : IRBlock := ⟨0, 0x300, 1⟩

/-! Basic lemmas about the emission primitives. -/

theorem writeRange_lt {m : Nat → Cell} {off n : Nat} {f : Nat → Cell} {a : Nat}
    (h : a < off) : writeRange m off n f a = m a := by
  simp only [writeRange]
  rw [if_neg]
  omega

theorem writeRange_ge {m : Nat → Cell} {off n : Nat} {f : Nat → Cell} {a : Nat}
    (h : off + n ≤ a) : writeRange m off n f a = m a := by
  simp only [writeRange]
  rw [if_neg]
  omega

theorem writeRange_at {m : Nat → Cell} {off n : Nat} {f : Nat → Cell} {k : Nat}
    (h : k < n) : writeRange m off n f (off + k) = f k := by
  simp only [writeRange]
  rw [if_pos]
  · simp
  · omega

theorem protectRange_lt {p : Nat → Prot} {off n : Nat} {v : Prot} {a : Nat}
    (h : a < off) : protectRange p off n v a = p a := by
  simp only [protectRange]
  rw [if_neg]
  omega

theorem protectRange_ge {p : Nat → Prot} {off n : Nat} {v : Prot} {a : Nat}
    (h : off + n ≤ a) : protectRange p off n v a = p a := by
  simp only [protectRange]
  rw [if_neg]
  omega

theorem protectRange_mem {p : Nat → Prot} {off n : Nat} {v : Prot} {a : Nat}
    (h1 : off ≤ a) (h2 : a < off + n) : protectRange p off n v a = v := by
  simp only [protectRange]
  rw [if_pos ⟨h1, h2⟩]

@[simp] theorem emit_cursor (s : JitState) (n : Nat) (f : Nat → Cell) :
    (emit s n f).cursor = s.cursor + n := rfl

@[simp] theorem emit_prot (s : JitState) (n : Nat) (f : Nat → Cell) :
    (emit s n f).prot = s.prot := rfl

@[simp] theorem emit_nativeBlocks (s : JitState) (n : Nat) (f : Nat → Cell) :
    (emit s n f).nativeBlocks = s.nativeBlocks := rfl

@[simp] theorem emit_exits (s : JitState) (n : Nat) (f : Nat → Cell) :
    (emit s n f).exits = s.exits := rfl

@[simp] theorem emit_compilingBlockNum (s : JitState) (n : Nat) (f : Nat → Cell) :
    (emit s n f).compilingBlockNum = s.compilingBlockNum := rfl

@[simp] theorem emit_lookup (s : JitState) (n : Nat) (f : Nat → Cell) :
    (emit s n f).lookup = s.lookup := rfl

theorem emit_mem_lt {s : JitState} {n : Nat} {f : Nat → Cell} {a : Nat}
    (h : a < s.cursor) : (emit s n f).mem a = s.mem a :=
  writeRange_lt h

theorem emit_mem_at {s : JitState} {n : Nat} {f : Nat → Cell} {k : Nat}
    (h : k < n) : (emit s n f).mem (s.cursor + k) = f k :=
  writeRange_at h

@[simp] theorem SetBlockCheckedOffset_cursor (s : JitState) (bn : Int) (off : Nat) :
    (SetBlockCheckedOffset s bn off).cursor = s.cursor := rfl

@[simp] theorem SetBlockCheckedOffset_mem (s : JitState) (bn : Int) (off : Nat) :
    (SetBlockCheckedOffset s bn off).mem = s.mem := rfl

@[simp] theorem SetBlockCheckedOffset_exits (s : JitState) (bn : Int) (off : Nat) :
    (SetBlockCheckedOffset s bn off).exits = s.exits := rfl

@[simp] theorem SetBlockCheckedOffset_at (s : JitState) (bn : Int) (off : Nat) :
    (SetBlockCheckedOffset s bn off).nativeBlocks bn = some ⟨off⟩ := by
  simp [SetBlockCheckedOffset]

@[simp] theorem emitForwardGuard_cursor (s : JitState) (startPC : Nat) :
    (emitForwardGuard s startPC).cursor =
      s.cursor + (cmpDowncountSize + jccShortSize + movImmSize + jmpFarSize) := by
  simp [emitForwardGuard]
  omega

@[simp] theorem emitForwardGuard_nativeBlocks (s : JitState) (startPC : Nat) :
    (emitForwardGuard s startPC).nativeBlocks = s.nativeBlocks := rfl

@[simp] theorem emitForwardGuard_exits (s : JitState) (startPC : Nat) :
    (emitForwardGuard s startPC).exits = s.exits := rfl

@[simp] theorem emitForwardGuard_compilingBlockNum (s : JitState) (startPC : Nat) :
    (emitForwardGuard s startPC).compilingBlockNum = s.compilingBlockNum := rfl

@[simp] theorem emitBackGuard_cursor (s : JitState) (blockStart startPC : Nat) :
    (emitBackGuard s blockStart startPC).cursor =
      s.cursor + (cmpDowncountSize + jccNearSize + movImmSize + jmpFarSize) := by
  simp [emitBackGuard]
  omega

@[simp] theorem emitBackGuard_nativeBlocks (s : JitState) (blockStart startPC : Nat) :
    (emitBackGuard s blockStart startPC).nativeBlocks = s.nativeBlocks := rfl

@[simp] theorem emitBackGuard_compilingBlockNum (s : JitState) (blockStart startPC : Nat) :
    (emitBackGuard s blockStart startPC).compilingBlockNum = s.compilingBlockNum := rfl

@[simp] theorem ReserveCodeSpace_cursor (s : JitState) (n : Nat) :
    (ReserveCodeSpace s n).cursor = s.cursor + n := rfl

@[simp] theorem ReserveCodeSpace_nativeBlocks (s : JitState) (n : Nat) :
    (ReserveCodeSpace s n).nativeBlocks = s.nativeBlocks := rfl

/-! Lemmas about the unlinked exit sequence. -/

@[simp] theorem emitUnlinkedExit_cursor (s : JitState) (pc : Nat) :
    (emitUnlinkedExit s pc).cursor = s.cursor + (movImmSize + jmpFarSize) := by
  simp [emitUnlinkedExit]
  omega

@[simp] theorem emitUnlinkedExit_exits (s : JitState) (pc : Nat) :
    (emitUnlinkedExit s pc).exits = s.exits := rfl

@[simp] theorem emitUnlinkedExit_compilingBlockNum (s : JitState) (pc : Nat) :
    (emitUnlinkedExit s pc).compilingBlockNum = s.compilingBlockNum := rfl

@[simp] theorem emitUnlinkedExit_nativeBlocks (s : JitState) (pc : Nat) :
    (emitUnlinkedExit s pc).nativeBlocks = s.nativeBlocks := rfl

theorem emitUnlinkedExit_mem_mov {s : JitState} {pc k : Nat} (hk : k < movImmSize) :
    (emitUnlinkedExit s pc).mem (s.cursor + k) = Cell.movScratchImm pc k := by
  unfold emitUnlinkedExit
  rw [emit_mem_lt, emit_mem_at hk]
  simp only [emit_cursor]
  unfold movImmSize at hk ⊢
  omega

theorem emitUnlinkedExit_mem_jmp {s : JitState} {pc k : Nat} (hk : k < jmpFarSize) :
    (emitUnlinkedExit s pc).mem (s.cursor + movImmSize + k) = Cell.jmpDispatch k := by
  unfold emitUnlinkedExit
  have h1 : s.cursor + movImmSize + k =
      (emit s movImmSize (fun j => Cell.movScratchImm pc j)).cursor + k := by
    simp
  rw [h1, emit_mem_at hk]

@[simp] theorem AddLinkableExit_mem (s : JitState) (bn : Int) (pc e l : Nat) :
    (AddLinkableExit s bn pc e l).mem = s.mem := rfl

@[simp] theorem AddLinkableExit_exits (s : JitState) (bn : Int) (pc e l : Nat) :
    (AddLinkableExit s bn pc e l).exits = ⟨bn, pc, e, l⟩ :: s.exits := rfl

@[simp] theorem AddLinkableExit_cursor (s : JitState) (bn : Int) (pc e l : Nat) :
    (AddLinkableExit s bn pc e l).cursor = s.cursor := rfl

@[simp] theorem AddLinkableExit_nativeBlocks (s : JitState) (bn : Int) (pc e l : Nat) :
    (AddLinkableExit s bn pc e l).nativeBlocks = s.nativeBlocks := rfl

theorem WriteConstExit_nativeBlocks (cfg : Config) (s : JitState) (pc : Nat) :
    (WriteConstExit cfg s pc).nativeBlocks = s.nativeBlocks := by
  simp only [WriteConstExit]
  split <;> split <;> (try split) <;> (try split) <;>
    simp [ReserveCodeSpace, AddLinkableExit, emitUnlinkedExit]

theorem WriteConstExit_cursor_le (cfg : Config) (s : JitState) (pc : Nat) :
    s.cursor ≤ (WriteConstExit cfg s pc).cursor := by
  simp only [WriteConstExit]
  split <;> split <;> (try split) <;> (try split) <;>
    (try simp [ReserveCodeSpace, AddLinkableExit, emitUnlinkedExit]) <;> omega

theorem applyAction_nativeBlocks (cfg : Config) (i : Nat) (s : JitState) (a : IRAction) :
    (applyAction cfg i s a).nativeBlocks = s.nativeBlocks := by
  cases a with
  | emitBody n => rfl
  | constExit pc => exact WriteConstExit_nativeBlocks cfg s pc

theorem applyAction_cursor_le (cfg : Config) (i : Nat) (s : JitState) (a : IRAction) :
    s.cursor ≤ (applyAction cfg i s a).cursor := by
  cases a with
  | emitBody n => exact Nat.le_add_right _ _
  | constExit pc => exact WriteConstExit_cursor_le cfg s pc

theorem foldl_applyAction_nativeBlocks (cfg : Config) (i : Nat) :
    ∀ (l : List IRAction) (s : JitState),
      (l.foldl (applyAction cfg i) s).nativeBlocks = s.nativeBlocks := by
  intro l
  induction l with
  | nil => intro s; rfl
  | cons a t ih =>
    intro s
    rw [List.foldl_cons, ih, applyAction_nativeBlocks]

theorem foldl_applyAction_cursor_le (cfg : Config) (i : Nat) :
    ∀ (l : List IRAction) (s : JitState),
      s.cursor ≤ (l.foldl (applyAction cfg i) s).cursor := by
  intro l
  induction l with
  | nil => intro s; exact Nat.le_refl _
  | cons a t ih =>
    intro s
    exact Nat.le_trans (applyAction_cursor_le cfg i s a) (ih (applyAction cfg i s a))

theorem emitBodyInst_nativeBlocks (cfg : Config) (g : Nat → List IRAction) (i : Nat)
    (s : JitState) : (emitBodyInst cfg g i s).nativeBlocks = s.nativeBlocks :=
  foldl_applyAction_nativeBlocks cfg i (g i) s

theorem emitBodyInst_cursor_le (cfg : Config) (g : Nat → List IRAction) (i : Nat)
    (s : JitState) : s.cursor ≤ (emitBodyInst cfg g i s).cursor :=
  foldl_applyAction_cursor_le cfg i (g i) s

theorem compileLoop_cursor_le (cfg : Config) (g : Nat → List IRAction) :
    ∀ (n i : Nat) (s : JitState), s.cursor ≤ (compileLoop cfg g n i s).2.cursor := by
  intro n
  induction n with
  | zero => intro i s; simp [compileLoop]
  | succ m ih =>
    intro i s
    simp only [compileLoop]
    by_cases h : GetSpaceLeft (emitBodyInst cfg g i s) < 0x800
    · rw [if_pos h]
      exact emitBodyInst_cursor_le cfg g i s
    · rw [if_neg h]
      exact Nat.le_trans (emitBodyInst_cursor_le cfg g i s) (ih (i + 1) _)

theorem compileLoop_nativeBlocks (cfg : Config) (g : Nat → List IRAction) :
    ∀ (n i : Nat) (s : JitState),
      (compileLoop cfg g n i s).2.nativeBlocks = s.nativeBlocks := by
  intro n
  induction n with
  | zero => intro i s; simp [compileLoop]
  | succ m ih =>
    intro i s
    simp only [compileLoop]
    by_cases h : GetSpaceLeft (emitBodyInst cfg g i s) < 0x800
    · rw [if_pos h]
      exact emitBodyInst_nativeBlocks cfg g i s
    · rw [if_neg h]
      rw [ih (i + 1) _, emitBodyInst_nativeBlocks]

/-- C8: with free cache space below the safety threshold, CompileBlock
fails on its very first space check: the state and the block come back
untouched, so no validated-entry guard is written and the cursor is
unchanged. -/
theorem C8_compileBlock_exhaustion (cfg : Config) (g : Nat → List IRAction) (s : JitState)
    (block : IRBlock) (block_num : Int) (h : GetSpaceLeft s < 0x800) :
    CompileBlock cfg g s block block_num = (false, s, block) := by
  unfold CompileBlock
  rw [if_pos h]

/-- Witness for C8 at a concrete full-cache state. -/
theorem C8_witness :
    GetSpaceLeft fullState < 0x800 ∧
      CompileBlock cfgFwd (fun _ => ([] : List IRAction)) fullState c2Block 7 = (false, fullState, c2Block) :=
  ⟨by decide, C8_compileBlock_exhaustion cfgFwd (fun _ => ([] : List IRAction)) fullState c2Block 7 (by decide)⟩

/-- C5: while linking is enabled, WriteConstExit registers exactly one
new exit-site record, keyed by the currently compiling block id, at
the exit's start offset, with reserved length at least
MIN_BLOCK_EXIT_LEN. -/
theorem C5_writeConstExit_min_exit_len (cfg : Config) (s : JitState) (pc : Nat)
    (h : cfg.enableBlocklink = true) :
    ∃ r : ExitRecord,
      (WriteConstExit cfg s pc).exits = r :: s.exits ∧
      r.fromBlock = s.compilingBlockNum ∧ r.targetPC = pc ∧ r.offset = s.cursor ∧
      MIN_BLOCK_EXIT_LEN ≤ r.len := by
  cases hnb : GetNativeBlock s (GetBlockNumberFromStartAddress s pc) with
  | none =>
    have hc : (emitUnlinkedExit s pc).cursor - s.cursor < MIN_BLOCK_EXIT_LEN := by
      rw [emitUnlinkedExit_cursor]
      unfold movImmSize jmpFarSize MIN_BLOCK_EXIT_LEN
      omega
    refine ⟨⟨s.compilingBlockNum, pc, s.cursor, MIN_BLOCK_EXIT_LEN⟩, ?_, rfl, rfl, rfl,
      Nat.le_refl _⟩
    simp only [WriteConstExit, hnb, if_pos h, if_pos hc, AddLinkableExit_exits]
    simp [ReserveCodeSpace]
  | some nb =>
    by_cases hlk : 0 ≤ GetBlockNumberFromStartAddress s pc ∧ cfg.enableBlocklink = true ∧
        nb.checkedOffset ≠ 0
    · have hc : (emit s jmpFarSize (fun k => Cell.jmpOff nb.checkedOffset k)).cursor -
          s.cursor < MIN_BLOCK_EXIT_LEN := by
        rw [emit_cursor]
        unfold jmpFarSize MIN_BLOCK_EXIT_LEN
        omega
      refine ⟨⟨s.compilingBlockNum, pc, s.cursor, MIN_BLOCK_EXIT_LEN⟩, ?_, rfl, rfl, rfl,
        Nat.le_refl _⟩
      simp only [WriteConstExit, hnb, if_pos h, if_pos hlk, if_pos hc, AddLinkableExit_exits]
      simp [ReserveCodeSpace]
    · have hc : (emitUnlinkedExit s pc).cursor - s.cursor < MIN_BLOCK_EXIT_LEN := by
        rw [emitUnlinkedExit_cursor]
        unfold movImmSize jmpFarSize MIN_BLOCK_EXIT_LEN
        omega
      refine ⟨⟨s.compilingBlockNum, pc, s.cursor, MIN_BLOCK_EXIT_LEN⟩, ?_, rfl, rfl, rfl,
        Nat.le_refl _⟩
      simp only [WriteConstExit, hnb, if_pos h, if_neg hlk, if_pos hc, AddLinkableExit_exits]
      simp [ReserveCodeSpace]

/-- Witness for C5 at a concrete state with no linkable target. -/
theorem C5_witness :
    ∃ r : ExitRecord,
      (WriteConstExit cfgFwd sampleState 0x100).exits = r :: sampleState.exits ∧
      r.fromBlock = sampleState.compilingBlockNum ∧ r.targetPC = 0x100 ∧
      r.offset = sampleState.cursor ∧ MIN_BLOCK_EXIT_LEN ≤ r.len :=
  C5_writeConstExit_min_exit_len cfgFwd sampleState 0x100 (by decide)

/-- C7: the code WriteConstExit emits at the exit start is a direct
unconditional jump to the target's checked offset exactly when the
target PC maps to a block whose metadata carries a nonzero
checkedOffset and linking is enabled; in every other case (no block,
zero checkedOffset, or linking disabled) it is MOV(SCRATCH1, pc)
followed by a jump to the dispatcher's resolve-PC-in-scratch entry. -/
theorem C7_writeConstExit_emitted (cfg : Config) (s : JitState) (pc : Nat) :
    (∀ nb, GetNativeBlock s (GetBlockNumberFromStartAddress s pc) = some nb →
      0 ≤ GetBlockNumberFromStartAddress s pc → cfg.enableBlocklink = true →
      nb.checkedOffset ≠ 0 →
      ∀ k, k < jmpFarSize →
        (WriteConstExit cfg s pc).mem (s.cursor + k) = Cell.jmpOff nb.checkedOffset k) ∧
    ((∀ nb, GetNativeBlock s (GetBlockNumberFromStartAddress s pc) = some nb →
        ¬(0 ≤ GetBlockNumberFromStartAddress s pc ∧ cfg.enableBlocklink = true ∧
          nb.checkedOffset ≠ 0)) →
      (∀ k, k < movImmSize →
        (WriteConstExit cfg s pc).mem (s.cursor + k) = Cell.movScratchImm pc k) ∧
      (∀ k, k < jmpFarSize →
        (WriteConstExit cfg s pc).mem (s.cursor + movImmSize + k) = Cell.jmpDispatch k)) := by
  constructor
  · intro nb hnb h0 hl hco k hk
    have hcond : 0 ≤ GetBlockNumberFromStartAddress s pc ∧ cfg.enableBlocklink = true ∧
        nb.checkedOffset ≠ 0 := ⟨h0, hl, hco⟩
    have hlt : s.cursor + k <
        (emit s jmpFarSize (fun j => Cell.jmpOff nb.checkedOffset j)).cursor := by
      simp only [emit_cursor]
      omega
    by_cases hc : (emit s jmpFarSize (fun j => Cell.jmpOff nb.checkedOffset j)).cursor -
        s.cursor < MIN_BLOCK_EXIT_LEN
    · simp only [WriteConstExit, hnb, if_pos hcond, if_pos hl, if_pos hc,
        AddLinkableExit_mem]
      unfold ReserveCodeSpace
      rw [emit_mem_lt hlt, emit_mem_at hk]
    · simp only [WriteConstExit, hnb, if_pos hcond, if_pos hl, if_neg hc,
        AddLinkableExit_mem]
      rw [emit_mem_at hk]
  · intro hno
    have hmain : ∀ a : Nat, a < s.cursor + (movImmSize + jmpFarSize) →
        (WriteConstExit cfg s pc).mem a = (emitUnlinkedExit s pc).mem a := by
      intro a ha
      have hcur : a < (emitUnlinkedExit s pc).cursor := by
        rw [emitUnlinkedExit_cursor]
        omega
      by_cases hl : cfg.enableBlocklink = true
      · by_cases hc : (emitUnlinkedExit s pc).cursor - s.cursor < MIN_BLOCK_EXIT_LEN
        · cases hnb : GetNativeBlock s (GetBlockNumberFromStartAddress s pc) with
          | none =>
            simp only [WriteConstExit, hnb, if_pos hl, if_pos hc, AddLinkableExit_mem]
            unfold ReserveCodeSpace
            rw [emit_mem_lt hcur]
          | some nb =>
            simp only [WriteConstExit, hnb, if_neg (hno nb hnb), if_pos hl, if_pos hc,
              AddLinkableExit_mem]
            unfold ReserveCodeSpace
            rw [emit_mem_lt hcur]
        · cases hnb : GetNativeBlock s (GetBlockNumberFromStartAddress s pc) with
          | none =>
            simp only [WriteConstExit, hnb, if_pos hl, if_neg hc, AddLinkableExit_mem]
          | some nb =>
            simp only [WriteConstExit, hnb, if_neg (hno nb hnb), if_pos hl, if_neg hc,
              AddLinkableExit_mem]
      · cases hnb : GetNativeBlock s (GetBlockNumberFromStartAddress s pc) with
        | none =>
          simp only [WriteConstExit, hnb, if_neg hl]
        | some nb =>
          simp only [WriteConstExit, hnb, if_neg (hno nb hnb), if_neg hl]
    constructor
    · intro k hk
      rw [hmain (s.cursor + k) (by omega)]
      exact emitUnlinkedExit_mem_mov hk
    · intro k hk
      rw [hmain (s.cursor + movImmSize + k) (by omega)]
      exact emitUnlinkedExit_mem_jmp hk

/-- Witness for C7: in the linked state the emitted exit is a direct
jump to checked offset 0x500; in the empty state it is the dispatcher
fallback. -/
theorem C7_witness :
    (WriteConstExit cfgFwd linkedState 0x100).mem (linkedState.cursor + 0) =
      Cell.jmpOff 0x500 0 ∧
    (WriteConstExit cfgFwd sampleState 0x100).mem (sampleState.cursor + 1) =
      Cell.movScratchImm 0x100 1 :=
  ⟨(C7_writeConstExit_emitted cfgFwd linkedState 0x100).1 ⟨0x500⟩ (by decide) (by decide)
      (by decide) (by decide) 0 (by decide),
   ((C7_writeConstExit_emitted cfgFwd sampleState 0x100).2
      (fun nb hnb => by simp [GetNativeBlock, sampleState] at hnb)).1 1 (by decide)⟩

/-- C1 counterexample: block 5's metadata exists but its checkedOffset
is 0 (no valid checked offset), yet OverwriteExit writes the patch
bytes — a jump to offset 0 — where the claim asserts a no-op with no
bytes written. -/
theorem C1_counterexample :
    GetNativeBlock c1State 5 = some ⟨0⟩ ∧
    c1State.mem 0 = Cell.free ∧
    (OverwriteExit cfgFwd c1State 0 16 5).mem 0 = Cell.jmpOff 0 0 := by
  refine ⟨rfl, rfl, ?_⟩
  decide

/-- C1 amended: OverwriteExit is a no-op exactly when the target block
has no metadata entry at all (GetNativeBlock returns null); when a
metadata entry exists, the direct jump is written unconditionally,
targeting the recorded checkedOffset even when that offset is still
the unset sentinel 0 — the source guards only on `if (nativeBlock)`,
not on the checked offset being valid. -/
theorem C1_overwriteExit_noop_iff_no_metadata (cfg : Config) (s : JitState)
    (srcOffset len : Nat) (block_num : Int) :
    (GetNativeBlock s block_num = none →
      OverwriteExit cfg s srcOffset len block_num = s) ∧
    (∀ nb, GetNativeBlock s block_num = some nb →
      ∀ k, k < jmpFarSize →
        (OverwriteExit cfg s srcOffset len block_num).mem (srcOffset + k) =
          Cell.jmpOff nb.checkedOffset k) := by
  constructor
  · intro hnb
    simp only [OverwriteExit, hnb]
  · intro nb hnb k hk
    have hkk : k < 5 := hk
    by_cases hpad : jmpFarSize < len
    · simp only [OverwriteExit, hnb, if_pos hpad]
      rw [writeRange_lt (by omega), writeRange_at hk]
    · simp only [OverwriteExit, hnb, if_neg hpad]
      rw [writeRange_at hk]

/-- Witness for the amended C1: the no-op case on a table with no
metadata, and the written jump when metadata exists with checked
offset 0. -/
theorem C1_witness :
    OverwriteExit cfgFwd sampleState 0 16 5 = sampleState ∧
    (OverwriteExit cfgFwd c1State 0 16 5).mem (0 + 3) = Cell.jmpOff 0 3 :=
  ⟨(C1_overwriteExit_noop_iff_no_metadata cfgFwd sampleState 0 16 5).1 rfl,
   (C1_overwriteExit_noop_iff_no_metadata cfgFwd c1State 0 16 5).2 ⟨0⟩ rfl 3 (by decide)⟩

/-- C3 counterexample: patching with len = 17 ≥ MIN_BLOCK_EXIT_LEN on a
W^X platform leaves byte 16 of the patch region writable on return:
the source makes `len` bytes writable but restores only 16 bytes to
executable. -/
theorem C3_counterexample :
    MIN_BLOCK_EXIT_LEN ≤ 17 ∧
    c1State.prot 16 = Prot.rx ∧
    (OverwriteExit cfgWX c1State 0 17 5).prot 16 = Prot.rw := by
  refine ⟨by decide, rfl, ?_⟩
  decide

/-- C3 amended: under W^X, when the patch is performed the first
MIN_BLOCK_EXIT_LEN (16) bytes of the region are restored to executable
before OverwriteExit returns; the entire len-byte region is restored
exactly when len = MIN_BLOCK_EXIT_LEN (as in every call the backend
itself makes, since recorded exit lengths are exactly 16), while any
bytes past the first 16 of a longer region are left writable. -/
theorem C3_overwriteExit_restores_16 (cfg : Config) (s : JitState)
    (srcOffset len : Nat) (block_num : Int) (nb : NativeBlock)
    (hwx : cfg.wxExclusive = true) (hnb : GetNativeBlock s block_num = some nb) :
    (∀ a, srcOffset ≤ a → a < srcOffset + 16 →
      (OverwriteExit cfg s srcOffset len block_num).prot a = Prot.rx) ∧
    (len = MIN_BLOCK_EXIT_LEN → ∀ a, srcOffset ≤ a → a < srcOffset + len →
      (OverwriteExit cfg s srcOffset len block_num).prot a = Prot.rx) ∧
    (∀ a, srcOffset + 16 ≤ a → a < srcOffset + len →
      (OverwriteExit cfg s srcOffset len block_num).prot a = Prot.rw) := by
  have hprot : (OverwriteExit cfg s srcOffset len block_num).prot =
      ProtectMemoryPages (ProtectMemoryPages s.prot srcOffset len Prot.rw) srcOffset 16
        Prot.rx := by
    by_cases hpad : jmpFarSize < len
    · simp only [OverwriteExit, hnb, if_pos hpad, if_pos hwx]
    · simp only [OverwriteExit, hnb, if_neg hpad, if_pos hwx]
  refine ⟨?_, ?_, ?_⟩
  · intro a h1 h2
    rw [hprot]
    exact protectRange_mem h1 h2
  · intro hlen a h1 h2
    rw [hprot]
    exact protectRange_mem h1 (by rw [hlen] at h2; exact h2)
  · intro a h1 h2
    rw [hprot]
    unfold ProtectMemoryPages
    rw [protectRange_ge (by omega)]
    exact protectRange_mem (by omega) h2

/-- Witness for the amended C3 at a concrete state: restore of the
16-byte prefix, the full region when len = 16, and the writable
leftover byte when len = 17. -/
theorem C3_witness :
    (OverwriteExit cfgWX c1State 0 16 5).prot 15 = Prot.rx ∧
    (OverwriteExit cfgWX c1State 0 16 5).prot 0 = Prot.rx ∧
    (OverwriteExit cfgWX c1State 0 17 5).prot 16 = Prot.rw :=
  ⟨(C3_overwriteExit_restores_16 cfgWX c1State 0 16 5 ⟨0⟩ rfl rfl).1 15 (by decide)
      (by decide),
   (C3_overwriteExit_restores_16 cfgWX c1State 0 16 5 ⟨0⟩ rfl rfl).2.1 rfl 0 (by decide)
      (by decide),
   (C3_overwriteExit_restores_16 cfgWX c1State 0 17 5 ⟨0⟩ rfl rfl).2.2 16 (by decide)
      (by decide)⟩

/-! Lemmas about the entry and finish phases of CompileBlock. -/

@[simp] theorem compileEntry_exits (cfg : Config) (s : JitState) (block : IRBlock)
    (bn : Int) : (compileEntry cfg s block bn).exits = s.exits := by
  unfold compileEntry
  split <;> rfl

@[simp] theorem compileEntry_compilingBlockNum (cfg : Config) (s : JitState)
    (block : IRBlock) (bn : Int) : (compileEntry cfg s block bn).compilingBlockNum = bn := by
  unfold compileEntry
  split <;> rfl

theorem compileEntry_cursor_ge (cfg : Config) (s : JitState) (block : IRBlock) (bn : Int) :
    s.cursor ≤ (compileEntry cfg s block bn).cursor := by
  unfold compileEntry
  split
  · simp
  · exact Nat.le_refl _

theorem debugTailStep_cursor_le (cfg : Config) (s3 : JitState) :
    s3.cursor ≤ (debugTailStep cfg s3).cursor := by
  unfold debugTailStep
  split
  · simp
  · exact Nat.le_refl _

@[simp] theorem debugTailStep_nativeBlocks (cfg : Config) (s3 : JitState) :
    (debugTailStep cfg s3).nativeBlocks = s3.nativeBlocks := by
  unfold debugTailStep
  split <;> rfl

theorem padStep_cursor_min (blockStart : Nat) (s4 : JitState) (h : blockStart ≤ s4.cursor) :
    blockStart + MIN_BLOCK_NORMAL_LEN ≤ (padStep blockStart s4).cursor := by
  simp only [padStep]
  split
  · next hlt =>
    simp only [ReserveCodeSpace_cursor]
    omega
  · next hge => omega

theorem padStep_cursor_le (blockStart : Nat) (s4 : JitState) :
    s4.cursor ≤ (padStep blockStart s4).cursor := by
  simp only [padStep]
  split
  · simp
  · exact Nat.le_refl _

@[simp] theorem padStep_nativeBlocks (blockStart : Nat) (s4 : JitState) :
    (padStep blockStart s4).nativeBlocks = s4.nativeBlocks := by
  simp only [padStep]
  split <;> rfl

theorem backGuardStep_cursor (cfg : Config) (blockStart startPC : Nat) (s6 : JitState) :
    (backGuardStep cfg blockStart startPC s6).cursor =
      s6.cursor + (if cfg.enableBlocklink && cfg.useBackJump then backGuardSize else 0) := by
  by_cases hb : (cfg.enableBlocklink && cfg.useBackJump) = true
  · simp only [backGuardStep, if_pos hb, emitBackGuard_cursor, backGuardSize]
  · simp only [backGuardStep, if_neg hb, Nat.add_zero]

@[simp] theorem backGuardStep_nativeBlocks (cfg : Config) (blockStart startPC : Nat)
    (s6 : JitState) :
    (backGuardStep cfg blockStart startPC s6).nativeBlocks = s6.nativeBlocks := by
  unfold backGuardStep
  split <;> rfl

theorem compileFinish_cursor_ge (cfg : Config) (startPC blockStart : Nat) (block_num : Int)
    (w : Bool) (s3 : JitState) (h : blockStart ≤ s3.cursor) :
    blockStart + MIN_BLOCK_NORMAL_LEN ≤
      (compileFinish cfg startPC blockStart block_num w s3).cursor := by
  have h4 : blockStart ≤ (debugTailStep cfg s3).cursor :=
    Nat.le_trans h (debugTailStep_cursor_le cfg s3)
  have h5 := padStep_cursor_min blockStart (debugTailStep cfg s3) h4
  have h6 : ∀ s5 : JitState,
      (if !w then SetBlockCheckedOffset s5 block_num s5.cursor else s5).cursor = s5.cursor := by
    intro s5
    split <;> rfl
  simp only [compileFinish]
  show blockStart + MIN_BLOCK_NORMAL_LEN ≤ (backGuardStep cfg blockStart startPC _).cursor
  rw [backGuardStep_cursor, h6]
  omega

/-- C2 counterexample: a run with ample initial space whose single
instruction exhausts the cache partway through the loop: CompileBlock
fails, yet block 7's checkedOffset has already been recorded (as
0x2000, the guard offset) and the block's targetOffset has been set to
0x2014, so externally visible metadata is set despite failure. -/
theorem C2_counterexample :
    (CompileBlock cfgFwd (fun _ => [IRAction.emitBody codeCacheSize]) sampleState c2Block 7).1 = false ∧
    (CompileBlock cfgFwd (fun _ => [IRAction.emitBody codeCacheSize]) sampleState c2Block 7).2.1.nativeBlocks 7 =
      some ⟨0x2000⟩ ∧
    (CompileBlock cfgFwd (fun _ => [IRAction.emitBody codeCacheSize]) sampleState c2Block 7).2.2.targetOffset =
      0x2014 := by
  refine ⟨by decide, by decide, by decide⟩

/-- C2 amended: whenever CompileBlock returns failure the
currently-compiling marker ends cleared (it was -1 between
compilations, and a mid-loop failure resets it to -1); on the initial
space-check failure nothing at all changes — but a failure partway
through the loop leaves the already-written targetOffset (and, in
forward-check linking style, checkedOffset) set, abandoned in place
rather than reverted. -/
theorem C2_compileBlock_failure (cfg : Config) (g : Nat → List IRAction) (s : JitState)
    (block : IRBlock) (block_num : Int)
    (hm : s.compilingBlockNum = -1)
    (hf : (CompileBlock cfg g s block block_num).1 = false) :
    (CompileBlock cfg g s block block_num).2.1.compilingBlockNum = -1 ∧
    (GetSpaceLeft s < 0x800 → CompileBlock cfg g s block block_num = (false, s, block)) := by
  by_cases h0 : GetSpaceLeft s < 0x800
  · have heq : CompileBlock cfg g s block block_num = (false, s, block) := by
      simp only [CompileBlock, if_pos h0]
    rw [heq]
    exact ⟨hm, fun _ => rfl⟩
  · rcases hloop : compileLoop cfg g block.numInstructions 0
      (compileEntry cfg s block block_num) with ⟨ok, s3⟩
    cases ok with
    | true =>
      exfalso
      simp only [CompileBlock, if_neg h0, hloop] at hf
      exact Bool.true_eq_false.mp hf
    | false =>
      refine ⟨?_, fun hc => absurd hc h0⟩
      simp only [CompileBlock, if_neg h0, hloop]

/-- Witness for the amended C2 at the concrete initial-failure input. -/
theorem C2_witness :
    (CompileBlock cfgFwd (fun _ => ([] : List IRAction)) fullState c2Block
        7).2.1.compilingBlockNum = -1 ∧
    CompileBlock cfgFwd (fun _ => ([] : List IRAction)) fullState c2Block 7 =
      (false, fullState, c2Block) :=
  have h := C2_compileBlock_failure cfgFwd (fun _ => ([] : List IRAction)) fullState c2Block
    7 rfl (by decide)
  ⟨h.1, h.2 (by decide)⟩

/-- C4: after every successful CompileBlock, the final write cursor is
at least MIN_BLOCK_NORMAL_LEN bytes past the block's recorded
targetOffset (the block body is padded via ReserveCodeSpace when
shorter), so invalidation can later overwrite the entry safely. -/
theorem C4_compileBlock_min_normal_len (cfg : Config) (g : Nat → List IRAction) (s : JitState)
    (block : IRBlock) (block_num : Int)
    (h : (CompileBlock cfg g s block block_num).1 = true) :
    (CompileBlock cfg g s block block_num).2.2.targetOffset.toNat + MIN_BLOCK_NORMAL_LEN ≤
      (CompileBlock cfg g s block block_num).2.1.cursor := by
  by_cases h0 : GetSpaceLeft s < 0x800
  · exfalso
    simp only [CompileBlock, if_pos h0] at h
    exact Bool.false_eq_true.mp h
  · rcases hloop : compileLoop cfg g block.numInstructions 0 (compileEntry cfg s block block_num)
      with ⟨ok, s3⟩
    cases ok with
    | false =>
      exfalso
      simp only [CompileBlock, if_neg h0, hloop] at h
      exact Bool.false_eq_true.mp h
    | true =>
      have hcur : (compileEntry cfg s block block_num).cursor ≤ s3.cursor := by
        have hle := compileLoop_cursor_le cfg g block.numInstructions 0
          (compileEntry cfg s block block_num)
        rw [hloop] at hle
        exact hle
      have hfin := compileFinish_cursor_ge cfg block.originalStart
        (compileEntry cfg s block block_num).cursor block_num
        (cfg.enableBlocklink && !cfg.useBackJump) s3 hcur
      simp only [CompileBlock, if_neg h0, hloop]
      simpa using hfin

/-- Witness for C4 at a concrete successful compilation. -/
theorem C4_witness :
    (CompileBlock cfgFwd (fun _ => ([] : List IRAction)) sampleState c2Block 7).2.2.targetOffset.toNat +
        MIN_BLOCK_NORMAL_LEN ≤
      (CompileBlock cfgFwd (fun _ => ([] : List IRAction)) sampleState c2Block 7).2.1.cursor :=
  C4_compileBlock_min_normal_len cfgFwd (fun _ => ([] : List IRAction)) sampleState c2Block 7 (by decide)

theorem compileFinish_nativeBlocks_wrote (cfg : Config) (startPC blockStart : Nat)
    (block_num : Int) (s3 : JitState) :
    (compileFinish cfg startPC blockStart block_num true s3).nativeBlocks =
      s3.nativeBlocks := by
  simp only [compileFinish, Bool.not_true]
  show (backGuardStep cfg blockStart startPC _).nativeBlocks = s3.nativeBlocks
  rw [backGuardStep_nativeBlocks, if_neg (by decide : ¬(false = true))]
  simp

theorem compileFinish_notWrote_checked (cfg : Config) (startPC blockStart : Nat)
    (block_num : Int) (s3 : JitState) :
    ∃ co : Nat, s3.cursor ≤ co ∧
      (compileFinish cfg startPC blockStart block_num false s3).nativeBlocks block_num =
        some ⟨co⟩ ∧
      co + (if cfg.enableBlocklink && cfg.useBackJump then backGuardSize else 0) =
        (compileFinish cfg startPC blockStart block_num false s3).cursor := by
  refine ⟨(padStep blockStart (debugTailStep cfg s3)).cursor, ?_, ?_, ?_⟩
  · exact Nat.le_trans (debugTailStep_cursor_le cfg s3)
      (padStep_cursor_le blockStart (debugTailStep cfg s3))
  · simp only [compileFinish, Bool.not_false]
    show (backGuardStep cfg blockStart startPC _).nativeBlocks block_num = _
    rw [backGuardStep_nativeBlocks, if_pos trivial]
    exact SetBlockCheckedOffset_at _ _ _
  · simp only [compileFinish, Bool.not_false]
    show _ = (backGuardStep cfg blockStart startPC _).cursor
    rw [backGuardStep_cursor, if_pos trivial, SetBlockCheckedOffset_cursor]

theorem compileEntry_nativeBlocks_fwd (cfg : Config) (s : JitState) (block : IRBlock)
    (bn : Int) (hw : (cfg.enableBlocklink && !cfg.useBackJump) = true) :
    (compileEntry cfg s block bn).nativeBlocks bn = some ⟨s.cursor⟩ := by
  simp only [compileEntry, if_pos hw]
  show (emitForwardGuard (SetBlockCheckedOffset s bn s.cursor)
    block.originalStart).nativeBlocks bn = _
  rw [emitForwardGuard_nativeBlocks]
  exact SetBlockCheckedOffset_at s bn s.cursor

theorem compileEntry_nativeBlocks_nofwd (cfg : Config) (s : JitState) (block : IRBlock)
    (bn : Int) (hw : ¬((cfg.enableBlocklink && !cfg.useBackJump) = true)) :
    (compileEntry cfg s block bn).nativeBlocks = s.nativeBlocks := by
  simp only [compileEntry, if_neg hw]

/-- C9: a successful CompileBlock always records checkedOffset for the
block: in forward-check linking style (blocklink on, back-jump off) it
is the offset where the entry guard was emitted, i.e. the entry
cursor; in every other configuration it is the offset reached after
the padded body (the final cursor minus the back-jump guard when one
is emitted); and since compilation starts past the trampoline area
(cursor positive), the recorded value is never the unset sentinel 0. -/
theorem C9_compileBlock_checkedOffset (cfg : Config) (g : Nat → List IRAction) (s : JitState)
    (block : IRBlock) (block_num : Int)
    (h : (CompileBlock cfg g s block block_num).1 = true) (hpos : 0 < s.cursor) :
    ∃ nb : NativeBlock,
      (CompileBlock cfg g s block block_num).2.1.nativeBlocks block_num = some nb ∧
      nb.checkedOffset ≠ 0 ∧
      ((cfg.enableBlocklink && !cfg.useBackJump) = true → nb.checkedOffset = s.cursor) ∧
      ((cfg.enableBlocklink && !cfg.useBackJump) = false →
        nb.checkedOffset +
            (if cfg.enableBlocklink && cfg.useBackJump then backGuardSize else 0) =
          (CompileBlock cfg g s block block_num).2.1.cursor) := by
  by_cases h0 : GetSpaceLeft s < 0x800
  · exfalso
    simp only [CompileBlock, if_pos h0] at h
    exact Bool.false_eq_true.mp h
  · rcases hloop : compileLoop cfg g block.numInstructions 0 (compileEntry cfg s block block_num)
      with ⟨ok, s3⟩
    cases ok with
    | false =>
      exfalso
      simp only [CompileBlock, if_neg h0, hloop] at h
      exact Bool.false_eq_true.mp h
    | true =>
      have hnb3 : s3.nativeBlocks = (compileEntry cfg s block block_num).nativeBlocks := by
        have hh := compileLoop_nativeBlocks cfg g block.numInstructions 0
          (compileEntry cfg s block block_num)
        rw [hloop] at hh
        exact hh
      have hcur3 : (compileEntry cfg s block block_num).cursor ≤ s3.cursor := by
        have hh := compileLoop_cursor_le cfg g block.numInstructions 0
          (compileEntry cfg s block block_num)
        rw [hloop] at hh
        exact hh
      simp only [CompileBlock, if_neg h0, hloop]
      by_cases hw : (cfg.enableBlocklink && !cfg.useBackJump) = true
      · rw [hw]
        refine ⟨⟨s.cursor⟩, ?_, Nat.pos_iff_ne_zero.mp hpos, fun _ => rfl, ?_⟩
        · rw [compileFinish_nativeBlocks_wrote, hnb3,
            compileEntry_nativeBlocks_fwd cfg s block block_num hw]
        · intro hff
          exact absurd hff (by decide)
      · have hwf : (cfg.enableBlocklink && !cfg.useBackJump) = false :=
          Bool.eq_false_iff.mpr hw
        rw [hwf]
        obtain ⟨co, hle, hset, hcur⟩ := compileFinish_notWrote_checked cfg
          block.originalStart (compileEntry cfg s block block_num).cursor block_num s3
        have hco : 0 < co :=
          Nat.lt_of_lt_of_le hpos (Nat.le_trans
            (compileEntry_cursor_ge cfg s block block_num) (Nat.le_trans hcur3 hle))
        refine ⟨⟨co⟩, hset, Nat.pos_iff_ne_zero.mp hco, ?_, fun _ => hcur⟩
        intro htt
        exact absurd htt (by decide)

/-- Witness for C9 at a concrete successful forward-style compilation. -/
theorem C9_witness :
    ∃ nb : NativeBlock,
      (CompileBlock cfgFwd (fun _ => ([] : List IRAction)) sampleState c2Block 7).2.1.nativeBlocks 7 =
        some nb ∧
      nb.checkedOffset ≠ 0 ∧
      ((cfgFwd.enableBlocklink && !cfgFwd.useBackJump) = true →
        nb.checkedOffset = sampleState.cursor) ∧
      ((cfgFwd.enableBlocklink && !cfgFwd.useBackJump) = false →
        nb.checkedOffset +
            (if cfgFwd.enableBlocklink && cfgFwd.useBackJump then backGuardSize else 0) =
          (CompileBlock cfgFwd (fun _ => ([] : List IRAction)) sampleState c2Block 7).2.1.cursor) :=
  C9_compileBlock_checkedOffset cfgFwd (fun _ => ([] : List IRAction)) sampleState c2Block 7 (by decide)
    (by decide)

theorem eraseAllLinks_not_target (lk : Nat → Int) (exits : List ExitRecord) (bn : Int) :
    ∀ r ∈ EraseAllLinks lk exits bn, lk r.targetPC ≠ bn := by
  intro r hr
  rw [EraseAllLinks, List.mem_filter] at hr
  simpa using hr.2

theorem invalidateBlock_exits (cfg : Config) (s : JitState) (block : IRBlock)
    (block_num : Int) :
    (InvalidateBlock cfg s block block_num).exits =
      EraseAllLinks s.lookup s.exits block_num := by
  by_cases hpc : block.originalStart ≠ 0
  · simp only [InvalidateBlock, if_pos hpc]
  · simp only [InvalidateBlock, if_neg hpc]

/-- C6: after InvalidateBlock on a block whose guest PC is nonzero, no
remaining exit-site record targets the invalidated block id, and the
first MIN_BLOCK_NORMAL_LEN bytes at the block's targetOffset hold
MOV(SCRATCH1, originalStart) followed by a jump to the dispatcher's
resolve entry and no-effect filler; a block with guest PC 0 is treated
as never compiled and none of its cache bytes are written. -/
theorem C6_invalidateBlock_effect (cfg : Config) (s : JitState) (block : IRBlock)
    (block_num : Int) :
    (∀ r ∈ (InvalidateBlock cfg s block block_num).exits,
      s.lookup r.targetPC ≠ block_num) ∧
    (block.originalStart ≠ 0 →
      (∀ k, k < movImmSize →
        (InvalidateBlock cfg s block block_num).mem (block.targetOffset.toNat + k) =
          Cell.movScratchImm block.originalStart k) ∧
      (∀ k, k < jmpFarSize →
        (InvalidateBlock cfg s block block_num).mem
          (block.targetOffset.toNat + movImmSize + k) = Cell.jmpDispatch k) ∧
      (∀ k, movImmSize + jmpFarSize ≤ k → k < MIN_BLOCK_NORMAL_LEN →
        (InvalidateBlock cfg s block block_num).mem (block.targetOffset.toNat + k) =
          Cell.filler)) ∧
    (block.originalStart = 0 → (InvalidateBlock cfg s block block_num).mem = s.mem) := by
  refine ⟨?_, ?_, ?_⟩
  · rw [invalidateBlock_exits]
    exact eraseAllLinks_not_target s.lookup s.exits block_num
  · intro hpc
    have hm : (InvalidateBlock cfg s block block_num).mem =
        (if movImmSize + jmpFarSize < MIN_BLOCK_NORMAL_LEN then
          writeRange
            (writeRange
              (writeRange s.mem block.targetOffset.toNat movImmSize
                (fun k => Cell.movScratchImm block.originalStart k))
              (block.targetOffset.toNat + movImmSize) jmpFarSize (fun k => Cell.jmpDispatch k))
            (block.targetOffset.toNat + (movImmSize + jmpFarSize))
            (MIN_BLOCK_NORMAL_LEN - (movImmSize + jmpFarSize)) (fun _ => Cell.filler)
        else
          writeRange
            (writeRange s.mem block.targetOffset.toNat movImmSize
              (fun k => Cell.movScratchImm block.originalStart k))
            (block.targetOffset.toNat + movImmSize) jmpFarSize (fun k => Cell.jmpDispatch k)) := by
      simp only [InvalidateBlock, if_pos hpc]
    rw [hm, if_pos (by decide : movImmSize + jmpFarSize < MIN_BLOCK_NORMAL_LEN)]
    refine ⟨?_, ?_, ?_⟩
    · intro k hk
      rw [writeRange_lt (by omega), writeRange_lt (by omega), writeRange_at hk]
    · intro k hk
      rw [writeRange_lt (by omega), writeRange_at hk]
    · intro k hk1 hk2
      have haddr : block.targetOffset.toNat + k =
          (block.targetOffset.toNat + (movImmSize + jmpFarSize)) +
            (k - (movImmSize + jmpFarSize)) := by
        omega
      rw [haddr, writeRange_at (by omega)]
  · intro hpc
    have hn : ¬(block.originalStart ≠ 0) := by simp [hpc]
    simp only [InvalidateBlock, if_neg hn]

/-- Witness for C6 at a concrete invalidation. -/
theorem C6_witness :
    (InvalidateBlock cfgWX linkedState invBlock 5).mem (invBlock.targetOffset.toNat + 0) =
      Cell.movScratchImm 0x8900 0 ∧
    (InvalidateBlock cfgWX linkedState invBlock 5).mem
      (invBlock.targetOffset.toNat + movImmSize + 0) = Cell.jmpDispatch 0 ∧
    (InvalidateBlock cfgWX linkedState invBlock 5).mem (invBlock.targetOffset.toNat + 15) =
      Cell.filler ∧
    (∀ r ∈ (InvalidateBlock cfgWX linkedState invBlock 5).exits,
      linkedState.lookup r.targetPC ≠ 5) :=
  have h := C6_invalidateBlock_effect cfgWX linkedState invBlock 5
  ⟨(h.2.1 (by decide)).1 0 (by decide), (h.2.1 (by decide)).2.1 0 (by decide),
   (h.2.1 (by decide)).2.2 15 (by decide) (by decide), h.1⟩

/-- C10: invalidating a block whose guest PC is 0 writes no cache
bytes and changes neither protection nor the cursor, yet still runs
the link-erase step, so no exit-site record targeting the block id
remains. -/
theorem C10_invalidateBlock_pc_zero (cfg : Config) (s : JitState) (block : IRBlock)
    (block_num : Int) (h : block.originalStart = 0) :
    (InvalidateBlock cfg s block block_num).mem = s.mem ∧
    (InvalidateBlock cfg s block block_num).prot = s.prot ∧
    (InvalidateBlock cfg s block block_num).cursor = s.cursor ∧
    (InvalidateBlock cfg s block block_num).exits =
      EraseAllLinks s.lookup s.exits block_num ∧
    ∀ r ∈ (InvalidateBlock cfg s block block_num).exits,
      s.lookup r.targetPC ≠ block_num := by
  have hn : ¬(block.originalStart ≠ 0) := by simp [h]
  refine ⟨?_, ?_, ?_, invalidateBlock_exits cfg s block block_num, ?_⟩
  · simp only [InvalidateBlock, if_neg hn]
  · simp only [InvalidateBlock, if_neg hn]
  · simp only [InvalidateBlock, if_neg hn]
  · rw [invalidateBlock_exits]
    exact eraseAllLinks_not_target s.lookup s.exits block_num

/-- Witness for C10 at a concrete zero-PC invalidation. -/
theorem C10_witness :
    (InvalidateBlock cfgWX linkedState invBlockZero 5).mem = linkedState.mem ∧
    (InvalidateBlock cfgWX linkedState invBlockZero 5).exits =
      EraseAllLinks linkedState.lookup linkedState.exits 5 :=
  have h := C10_invalidateBlock_pc_zero cfgWX linkedState invBlockZero 5 rfl
  ⟨h.1, h.2.2.2.1⟩

end X64Jit
